import Mathlib

/-!
# Verification of the cutiechat matchmaking and signaling server

Shallow embedding of `src/server.js` and `src/public/client.js`:
the waiting queue, the start-matching handler (worldwide-first matching
policy with local fallback and stale-partner recovery), the signal relay,
the hangup/disconnect handlers, and the client-side reaction to
`match-found` / `partner-dropped` events.

Mutable globals of the JS code (`waitingUsers`, the client's `partnerId`,
`peerConnection`, `localUserData`) become explicit state records threaded
through pure transition functions.  Socket emissions become explicit
values returned alongside the new state.
-/

namespace CutieChat

/-- A waiting user, as pushed onto `waitingUsers` in `server.js`:
`{ id: socket.id, username, country }`. -/
structure User where
  id : String
  username : String
  country : String
deriving Repr, DecidableEq

/-- The server's global `waitingUsers` array. -/
abbrev Queue := List User

/-- Removal of every entry of a given connection id, written in the source
as `waitingUsers.filter(user => user.id !== socket.id)`; used by the
start-matching, user-hangup and disconnect handlers. -/
def removeUser (q : Queue) (socketId : String) : Queue :=
  q.filter (fun u => u.id != socketId)

/-- The combination `findIndex` followed by `splice(index, 1)`: find the
first element satisfying `p`, remove it, and return it together with the
remaining list (order of the others preserved); `none` when no element
satisfies `p`. -/
def findRemoveFirst (p : User → Bool) : Queue → Option (User × Queue)
  | [] => none
  | u :: rest =>
    if p u then some (u, rest)
    else
      match findRemoveFirst p rest with
      | some (v, rest') => some (v, u :: rest')
      | none => none

/-- The matching policy of the start-matching handler: first search for a
worldwide partner (`user.country !== country`), and only if none exists
fall back to a local partner (`user.country === country`).  On success the
partner is spliced out of the queue. -/
def findAndRemovePartner (q : Queue) (country : String) : Option (User × Queue) :=
  match findRemoveFirst (fun u => u.country != country) q with
  | some r => some r
  | none => findRemoveFirst (fun u => u.country == country) q

/-- Outcome of a start-matching request: either a partner was matched
(`match-found` is emitted to both sides) or the requester was put in the
queue (`waiting-in-queue` is emitted to the requester). -/
inductive MatchOutcome where
  | matched (partner : User)
  | waiting
deriving Repr, DecidableEq

/-- The `start-matching` handler of `server.js`.  `live` models
`io.sockets.sockets.get` — whether a socket id is currently connected.
Steps: filter out the requester's own stale entry, run the matching
policy, check the partner socket is still live, and either commit the
match or push the requester and tell it to wait. -/
def startMatching (live : String → Bool) (q : Queue)
    (socketId username country : String) : MatchOutcome × Queue :=
  let q1 := removeUser q socketId
  match findAndRemovePartner q1 country with
  | some (partner, q2) =>
    if live partner.id then
      (.matched partner, q2)
    else
      (.waiting, q2 ++ [⟨socketId, username, country⟩])
  | none => (.waiting, q1 ++ [⟨socketId, username, country⟩])

/-- The `user-hangup` handler: emit `partner-dropped` to the given partner
(when one was supplied) and remove the requester from the queue.  The
returned Boolean records whether a `partner-dropped` emission was made. -/
def userHangup (q : Queue) (socketId : String) (partnerId : Option String) :
    Queue × Option String :=
  (removeUser q socketId, partnerId)

/-- The `disconnect` handler: remove the disconnected socket from the
queue; no notifications are sent. -/
def handleDisconnect (q : Queue) (socketId : String) : Queue :=
  removeUser q socketId

/-- An inbound signal as sent by a client: `{ target, type, payload }`. -/
structure SignalIn where
  target : String
  type : String
  payload : String
deriving Repr, DecidableEq

/-- A relayed signal as delivered to the recipient:
`{ sender, type, payload }` addressed to `recipient`. -/
structure SignalOut where
  recipient : String
  sender : String
  type : String
  payload : String
deriving Repr, DecidableEq

/-- The signal handler of `server.js`: it emits to `data.target` the
message tagged with the sender id.  The relay is unconditional; the
emission reaches the target only if that socket is live (`io.to` on an
absent id delivers nowhere), which is the only way a message is dropped. -/
def handleSignal (live : String → Bool) (senderId : String) (d : SignalIn) :
    Option SignalOut :=
  if live d.target then
    some ⟨d.target, senderId, d.type, d.payload⟩
  else
    none

/-! ## Client-side state (`src/public/client.js`) -/

/-- The client's global mutable state: `partnerId`, whether a
`peerConnection` object exists, whether `localStream` is held, and the
`localUserData` attributes captured from the signup form. -/
structure ClientState where
  partnerId : Option String
  hasPeerConnection : Bool
  hasLocalStream : Bool
  username : String
  country : String
deriving Repr, DecidableEq

/-- Events a client emits to the server. -/
inductive ClientEmit where
  | startMatching (username country : String)
  | hangupEmit (partnerId : String)
deriving Repr, DecidableEq

/-- The function `clearConnectionState()`: close and null the peer
connection, null `partnerId`; the local stream and user data survive. -/
def clearConnectionState (c : ClientState) : ClientState :=
  { c with hasPeerConnection := false, partnerId := none }

/-- The function `handleHangUp(isAutomatic)`: emit `user-hangup` when a
partner is present, clear the connection state, and stop the local media
unless the hang-up is automatic. -/
def handleHangUp (c : ClientState) (isAutomatic : Bool) :
    ClientState × List ClientEmit :=
  let emits := match c.partnerId with
    | some p => [ClientEmit.hangupEmit p]
    | none => []
  let c1 := clearConnectionState c
  let c2 := if !isAutomatic then { c1 with hasLocalStream := false } else c1
  (c2, emits)

/-- The function `requeueForMatch()`: when the stored attributes are both
nonempty (JS truthiness of the strings), re-emit `start-matching` with
exactly those attributes; otherwise fall back to `handleHangUp(false)`. -/
def requeueForMatch (c : ClientState) : ClientState × List ClientEmit :=
  if c.username != "" && c.country != "" then
    (c, [ClientEmit.startMatching c.username c.country])
  else
    handleHangUp c false

/-- The handler for the "partner-dropped" event: clear the connection
state, then auto-requeue. -/
def onPartnerDropped (c : ClientState) : ClientState × List ClientEmit :=
  requeueForMatch (clearConnectionState c)

/-- The handler for the "match-found" event: record the partner id and
create a peer connection; the role is decided separately by `isInitiator`. -/
def onMatchFound (c : ClientState) (partnerId : String) : ClientState :=
  { c with partnerId := some partnerId, hasPeerConnection := true }

/-- The role tie-break `socket.id < partnerId` — lexicographic string
comparison of the two socket ids. -/
def isInitiator (selfId partnerId : String) : Bool :=
  decide (selfId < partnerId)

/-! ## Combined system state

The server holds no session registry; the session is mirrored by each
client's `partnerId` variable, set by the `match-found` handler.  The
combined state tracks the queue and, per connection id, that mirrored
partner reference. -/

/-- Queue plus the per-connection session mirror (`partnerId` of each
client, keyed by its connection id). -/
structure SystemState where
  queue : Queue
  session : String → Option String

/-- A join processed end to end: the server runs `start-matching`, and on
a committed match both `match-found` emissions are delivered, each setting
the receiving client's `partnerId`. -/
def joinStep (live : String → Bool) (s : SystemState)
    (socketId username country : String) : SystemState :=
  match startMatching live s.queue socketId username country with
  | (.matched p, q') =>
    { queue := q',
      session := fun x =>
        if x = socketId then some p.id
        else if x = p.id then some socketId
        else s.session x }
  | (.waiting, q') => { s with queue := q' }

/-! ## Server event sequences -/

/-- A server-side inbound event; a join carries the liveness environment
in effect when it is processed. -/
inductive SEvent where
  | join (live : String → Bool) (socketId username country : String)
  | hangup (socketId : String) (partnerId : Option String)
  | disconnect (socketId : String)

/-- Effect of one inbound event on the waiting queue. -/
def serverStep (q : Queue) : SEvent → Queue
  | .join live socketId username country =>
      (startMatching live q socketId username country).2
  | .hangup socketId _ => (userHangup q socketId none).1
  | .disconnect socketId => handleDisconnect q socketId

/-- Run a sequence of events from a queue state. -/
def serverRun (q : Queue) (evs : List SEvent) : Queue :=
  evs.foldl serverStep q

/-! ## Structure lemmas for the find-and-splice primitive -/

/-- A successful `findRemoveFirst` splits the queue around the returned
element: everything before it fails the test, the element passes it, and
the returned remainder is the queue with exactly that element removed. -/
theorem findRemoveFirst_some {p : User → Bool} {q : Queue} {u : User} {q' : Queue}
    (h : findRemoveFirst p q = some (u, q')) :
    ∃ l1 l2, q = l1 ++ u :: l2 ∧ q' = l1 ++ l2 ∧ p u = true ∧
      ∀ v ∈ l1, p v = false := by
  induction q generalizing q' with
  | nil => simp [findRemoveFirst] at h
  | cons a rest ih =>
    rw [findRemoveFirst] at h
    by_cases hp : p a
    · rw [if_pos hp] at h
      simp only [Option.some.injEq, Prod.mk.injEq] at h
      obtain ⟨hu, hq⟩ := h
      subst hu; subst hq
      exact ⟨[], rest, rfl, rfl, hp, by simp⟩
    · rw [if_neg hp] at h
      cases hfr : findRemoveFirst p rest with
      | none => rw [hfr] at h; exact absurd h (by simp)
      | some vr =>
        obtain ⟨v, rest'⟩ := vr
        rw [hfr] at h
        simp only [Option.some.injEq, Prod.mk.injEq] at h
        obtain ⟨hv, hq⟩ := h
        subst hv; subst hq
        obtain ⟨l1, l2, hrest, hrest', hv, hl1⟩ := ih hfr
        refine ⟨a :: l1, l2, by simp [hrest], by simp [hrest'], hv, ?_⟩
        intro w hw
        rcases List.mem_cons.mp hw with rfl | hw
        · exact Bool.eq_false_iff.mpr hp
        · exact hl1 w hw

/-- A failing `findRemoveFirst` means no element passes the test. -/
theorem findRemoveFirst_none {p : User → Bool} {q : Queue} :
    findRemoveFirst p q = none ↔ ∀ v ∈ q, p v = false := by
  induction q with
  | nil => simp [findRemoveFirst]
  | cons a rest ih =>
    rw [findRemoveFirst]
    by_cases hp : p a
    · simp [if_pos hp, hp]
    · rw [if_neg hp]
      cases hfr : findRemoveFirst p rest with
      | none =>
        simp only [true_iff]
        intro v hv
        rcases List.mem_cons.mp hv with rfl | hv
        · exact Bool.eq_false_iff.mpr hp
        · exact (ih.mp hfr) v hv
      | some vr =>
        obtain ⟨v, rest'⟩ := vr
        obtain ⟨l1, l2, hrest, _, hv, _⟩ := findRemoveFirst_some hfr
        refine iff_of_false (by simp) ?_
        intro hall
        have hvm : v ∈ a :: rest :=
          List.mem_cons_of_mem a
            (hrest ▸ List.mem_append_right l1 (List.mem_cons_self v l2))
        rw [hall v hvm] at hv
        simp at hv

/-- A successful partner search splits the queue around the partner. -/
theorem findAndRemovePartner_some {q : Queue} {country : String} {u : User}
    {q' : Queue} (h : findAndRemovePartner q country = some (u, q')) :
    ∃ l1 l2, q = l1 ++ u :: l2 ∧ q' = l1 ++ l2 := by
  rw [findAndRemovePartner] at h
  cases hfr : findRemoveFirst (fun v => v.country != country) q with
  | some r =>
    rw [hfr] at h
    simp only [Option.some.injEq] at h
    subst h
    obtain ⟨l1, l2, hq, hq', _, _⟩ := findRemoveFirst_some hfr
    exact ⟨l1, l2, hq, hq'⟩
  | none =>
    rw [hfr] at h
    obtain ⟨l1, l2, hq, hq', _, _⟩ := findRemoveFirst_some h
    exact ⟨l1, l2, hq, hq'⟩

/-- Every entry surviving the self-filter has a different id. -/
theorem mem_removeUser {q : Queue} {socketId : String} {e : User}
    (h : e ∈ removeUser q socketId) : e ∈ q ∧ e.id ≠ socketId := by
  obtain ⟨hm, hc⟩ := List.mem_filter.mp h
  exact ⟨hm, by simpa using hc⟩

/-- Inversion of a committed match: the partner came out of the
self-filtered queue via the matching policy, and its socket was live. -/
theorem startMatching_matched {live : String → Bool} {q : Queue}
    {socketId username country : String} {p : User} {q' : Queue}
    (h : startMatching live q socketId username country = (.matched p, q')) :
    findAndRemovePartner (removeUser q socketId) country = some (p, q') ∧
      live p.id = true := by
  rw [startMatching] at h
  cases hfp : findAndRemovePartner (removeUser q socketId) country with
  | none =>
    rw [hfp] at h
    simp at h
  | some r =>
    obtain ⟨partner, q2⟩ := r
    rw [hfp] at h
    dsimp only at h
    by_cases hl : live partner.id
    · rw [if_pos hl] at h
      simp only [Prod.mk.injEq, MatchOutcome.matched.injEq] at h
      obtain ⟨h1, h2⟩ := h
      subst h1; subst h2
      exact ⟨rfl, hl⟩
    · rw [if_neg hl] at h
      simp at h

/-! ## C1 — cross-region priority -/

/-- C1.  If the queue holds at least one entry whose region differs from
the requester's region `r`, `findAndRemovePartner` succeeds and returns
the first (in insertion order) differing-region entry: every entry ahead
of it has region `r`, so no same-region entry is ever preferred. -/
theorem crossRegionPriority (q : Queue) (r : String)
    (h : ∃ e ∈ q, e.country ≠ r) :
    ∃ u q', findAndRemovePartner q r = some (u, q') ∧ u.country ≠ r ∧
      ∃ l1 l2, q = l1 ++ u :: l2 ∧ q' = l1 ++ l2 ∧ ∀ v ∈ l1, v.country = r := by
  obtain ⟨e, he, hne⟩ := h
  cases hfr : findRemoveFirst (fun u => u.country != r) q with
  | none =>
    have := findRemoveFirst_none.mp hfr e he
    simp [hne] at this
  | some ur =>
    obtain ⟨u, q'⟩ := ur
    obtain ⟨l1, l2, hq, hq', hu, hl1⟩ := findRemoveFirst_some hfr
    refine ⟨u, q', by rw [findAndRemovePartner, hfr], by simpa using hu,
      l1, l2, hq, hq', ?_⟩
    intro v hv
    have := hl1 v hv
    simpa using this

/-- Concrete check of C1: with a US entry ahead of an FR entry, an FR
requester is paired with the US entry. -/
theorem crossRegionPriority_witness :
    (∃ e ∈ [User.mk "b" "bob" "US", User.mk "c" "carl" "FR"], e.country ≠ "FR") ∧
    (∃ u q', findAndRemovePartner
        [User.mk "b" "bob" "US", User.mk "c" "carl" "FR"] "FR" = some (u, q') ∧
      u.country ≠ "FR" ∧
      ∃ l1 l2, [User.mk "b" "bob" "US", User.mk "c" "carl" "FR"] = l1 ++ u :: l2 ∧
        q' = l1 ++ l2 ∧ ∀ v ∈ l1, v.country = "FR") :=
  ⟨by decide, crossRegionPriority _ "FR" (by decide)⟩

/-! ## C2 — same-region fallback and empty-queue enqueue -/

/-- C2.  When every queued entry has the requester's region `r`, any
returned match is the queue's first entry (which has region `r`); and a
join against the empty queue enqueues the requester and reports the
waiting outcome. -/
theorem sameRegionFallback (live : String → Bool) (q : Queue) (r : String)
    (h : ∀ e ∈ q, e.country = r) :
    (∀ u q', findAndRemovePartner q r = some (u, q') →
       u.country = r ∧ q = u :: q') ∧
    (∀ socketId username, startMatching live [] socketId username r =
       (.waiting, [⟨socketId, username, r⟩])) := by
  constructor
  · intro u q' hf
    have hnone : findRemoveFirst (fun v => v.country != r) q = none :=
      findRemoveFirst_none.mpr (fun v hv => by simp [h v hv])
    rw [findAndRemovePartner, hnone] at hf
    obtain ⟨l1, l2, hq, hq', hu, hl1⟩ := findRemoveFirst_some hf
    have hl1nil : l1 = [] := by
      cases l1 with
      | nil => rfl
      | cons a t =>
        have ha : a ∈ q := by
          rw [hq]; exact List.mem_append_left _ (List.mem_cons_self a t)
        have := hl1 a (List.mem_cons_self a t)
        simp [h a ha] at this
    subst hl1nil
    simp only [List.nil_append] at hq hq'
    refine ⟨?_, by rw [hq, hq']⟩
    exact h u (by rw [hq]; exact List.mem_cons_self u l2)
  · intro socketId username
    rfl

/-- Concrete check of C2: a homogeneous US queue matched from a US
requester yields its head; the empty queue enqueues the requester. -/
theorem sameRegionFallback_witness :
    (∀ e ∈ [User.mk "b" "bob" "US"], e.country = "US") ∧
    ((∀ u q', findAndRemovePartner [User.mk "b" "bob" "US"] "US" = some (u, q') →
        u.country = "US" ∧ [User.mk "b" "bob" "US"] = u :: q') ∧
     (∀ socketId username, startMatching (fun _ => true) [] socketId username "US" =
        (.waiting, [⟨socketId, username, "US"⟩]))) :=
  ⟨by decide, sameRegionFallback (fun _ => true) [User.mk "b" "bob" "US"] "US" (by decide)⟩

/-! ## C7 — stale partner recovery -/

/-- C7.  When the matching policy picks a partner whose socket is no
longer live, the match is not committed: the requester is appended to the
queue and the waiting outcome (the waiting-in-queue notification) is
produced instead. -/
theorem stalePartnerRequeues (live : String → Bool) (q : Queue)
    (socketId username country : String) (p : User) (q2 : Queue)
    (hfp : findAndRemovePartner (removeUser q socketId) country = some (p, q2))
    (hstale : live p.id = false) :
    startMatching live q socketId username country =
      (.waiting, q2 ++ [⟨socketId, username, country⟩]) := by
  rw [startMatching, hfp]
  dsimp only
  rw [if_neg (by simp [hstale])]

/-- Concrete check of C7: the only candidate partner is dead, so the FR
requester ends up back in the queue with the waiting outcome. -/
theorem stalePartnerRequeues_witness :
    findAndRemovePartner (removeUser [User.mk "b" "bob" "US"] "a") "FR" =
      some (User.mk "b" "bob" "US", []) ∧
    (fun _ => false : String → Bool) "b" = false ∧
    startMatching (fun _ => false) [User.mk "b" "bob" "US"] "a" "alice" "FR" =
      (.waiting, [] ++ [⟨"a", "alice", "FR"⟩]) :=
  ⟨by decide, rfl,
    stalePartnerRequeues (fun _ => false) [User.mk "b" "bob" "US"]
      "a" "alice" "FR" (User.mk "b" "bob" "US") [] (by decide) rfl⟩

/-! ## C10 — no self-match -/

/-- C10.  A committed match never pairs a requester with itself: the
requester's own entries are filtered out before the partner search, so the
returned partner has a different connection id. -/
theorem noSelfMatch (live : String → Bool) (q : Queue)
    (socketId username country : String) (p : User) (q' : Queue)
    (h : startMatching live q socketId username country = (.matched p, q')) :
    p.id ≠ socketId := by
  obtain ⟨hfp, _⟩ := startMatching_matched h
  obtain ⟨l1, l2, hq1, _⟩ := findAndRemovePartner_some hfp
  have hp : p ∈ removeUser q socketId := by
    rw [hq1]; exact List.mem_append_right l1 (List.mem_cons_self p l2)
  exact (mem_removeUser hp).2

/-- Concrete check of C10: requester with id a matching against a queue
holding id b gets partner b, not itself. -/
theorem noSelfMatch_witness :
    startMatching (fun _ => true) [User.mk "b" "bob" "US"] "a" "alice" "FR" =
      (.matched (User.mk "b" "bob" "US"), []) ∧
    (User.mk "b" "bob" "US").id ≠ "a" :=
  ⟨by decide,
    noSelfMatch (fun _ => true) [User.mk "b" "bob" "US"] "a" "alice" "FR"
      (User.mk "b" "bob" "US") [] (by decide)⟩

/-! ## C4 — automatic requeue on partner loss -/

/-- C4.  A client receiving the partner-dropped notification discards its
session state (partner reference and peer connection) and, when the stored
display attributes are nonempty, the only emission it makes is a
start-matching request with exactly those attributes — in particular it
never echoes a user-hangup back to the partner. -/
theorem partnerDroppedAutoRequeue (c : ClientState)
    (hu : c.username ≠ "") (hc : c.country ≠ "") :
    (onPartnerDropped c).1.partnerId = none ∧
    (onPartnerDropped c).1.hasPeerConnection = false ∧
    (onPartnerDropped c).2 = [ClientEmit.startMatching c.username c.country] := by
  rw [onPartnerDropped, requeueForMatch]
  rw [if_pos (by simp [clearConnectionState, hu, hc])]
  simp [clearConnectionState]

/-- Concrete check of C4: a negotiating client with stored attributes
drops its session and re-emits start-matching with those attributes. -/
theorem partnerDroppedAutoRequeue_witness :
    ("alice" : String) ≠ "" ∧ ("FR" : String) ≠ "" ∧
    ((onPartnerDropped ⟨some "b", true, true, "alice", "FR"⟩).1.partnerId = none ∧
     (onPartnerDropped ⟨some "b", true, true, "alice", "FR"⟩).1.hasPeerConnection = false ∧
     (onPartnerDropped ⟨some "b", true, true, "alice", "FR"⟩).2 =
       [ClientEmit.startMatching "alice" "FR"]) :=
  ⟨by decide, by decide,
    partnerDroppedAutoRequeue ⟨some "b", true, true, "alice", "FR"⟩
      (by decide) (by decide)⟩

/-! ## C5 — deterministic, complementary negotiation roles -/

/-- C5.  For two distinct connection ids the role computation is
deterministic and complementary: exactly one of the two sides computes the
initiator role, and the other side computes the responder role. -/
theorem initiatorRoleComplementary (a b : String) (h : a ≠ b) :
    (isInitiator a b = true ∧ isInitiator b a = false) ∨
    (isInitiator a b = false ∧ isInitiator b a = true) := by
  rcases lt_trichotomy a b with hlt | heq | hgt
  · left
    refine ⟨by simp [isInitiator, hlt], ?_⟩
    simp only [isInitiator, decide_eq_false_iff_not]
    exact lt_asymm hlt
  · exact absurd heq h
  · right
    refine ⟨?_, by simp [isInitiator, hgt]⟩
    simp only [isInitiator, decide_eq_false_iff_not]
    exact lt_asymm hgt

/-- Concrete check of C5 on the id pair a, b. -/
theorem initiatorRoleComplementary_witness :
    ("a" : String) ≠ "b" ∧
    ((isInitiator "a" "b" = true ∧ isInitiator "b" "a" = false) ∨
     (isInitiator "a" "b" = false ∧ isInitiator "b" "a" = true)) :=
  ⟨by decide, initiatorRoleComplementary "a" "b" (by decide)⟩

/-! ## C6 — the relay does not check sessions (claim corrected) -/

/-- C6, counterexample to the claim as stated.  In a system state with no
session at all, a signal from sender a is still relayed to target b: the
handler consults no session information. -/
theorem signalSessionCheck_counterexample :
    (SystemState.mk [] (fun _ => none)).session "a" = none ∧
    handleSignal (fun _ => true) "a" ⟨"b", "sdp-offer", "payload"⟩ =
      some ⟨"b", "a", "sdp-offer", "payload"⟩ :=
  ⟨rfl, rfl⟩

/-- C6 as amended.  Every inbound signal is relayed to its target whenever
the target socket is live, tagged with the sender id, regardless of
session state — here even when the sender has no session at all. -/
theorem signalRelayedUnconditionally (live : String → Bool) (s : SystemState)
    (senderId : String) (d : SignalIn)
    (hlive : live d.target = true) (_hns : s.session senderId = none) :
    handleSignal live senderId d = some ⟨d.target, senderId, d.type, d.payload⟩ := by
  rw [handleSignal, if_pos hlive]

/-- Concrete check of the amended C6. -/
theorem signalRelayedUnconditionally_witness :
    handleSignal (fun _ => true) "a" ⟨"b", "ice-candidate", "x"⟩ =
      some ⟨"b", "a", "ice-candidate", "x"⟩ :=
  signalRelayedUnconditionally (fun _ => true) ⟨[], fun _ => none⟩ "a"
    ⟨"b", "ice-candidate", "x"⟩ rfl rfl

/-! ## Uniqueness of queue ids -/

/-- The self-filter preserves distinctness of the queued ids. -/
theorem removeUser_ids_nodup {q : Queue} {socketId : String}
    (h : (q.map User.id).Nodup) :
    ((removeUser q socketId).map User.id).Nodup :=
  h.sublist ((List.filter_sublist q).map User.id)

/-- Appending an entry whose id is fresh preserves distinctness. -/
theorem append_fresh_nodup {q : Queue} {u : User}
    (h : (q.map User.id).Nodup) (hf : ∀ e ∈ q, e.id ≠ u.id) :
    ((q ++ [u]).map User.id).Nodup := by
  rw [List.map_append, List.nodup_append]
  refine ⟨h, List.nodup_singleton _, ?_⟩
  intro a ha hb
  obtain ⟨e, he, rfl⟩ := List.mem_map.mp ha
  exact hf e he (by simpa using hb)

/-- A start-matching request preserves distinctness of the queued ids:
the requester is filtered out before being re-appended, and a matched
partner is spliced out. -/
theorem startMatching_ids_nodup (live : String → Bool) (q : Queue)
    (socketId username country : String)
    (h : (q.map User.id).Nodup) :
    (((startMatching live q socketId username country).2).map User.id).Nodup := by
  rw [startMatching]
  have h1 : ((removeUser q socketId).map User.id).Nodup := removeUser_ids_nodup h
  cases hfp : findAndRemovePartner (removeUser q socketId) country with
  | none =>
    dsimp only
    apply append_fresh_nodup h1
    intro e he
    exact (mem_removeUser he).2
  | some r =>
    obtain ⟨p, q2⟩ := r
    dsimp only
    obtain ⟨l1, l2, hq1, hq2⟩ := findAndRemovePartner_some hfp
    have hsub : List.Sublist (q2.map User.id)
        ((removeUser q socketId).map User.id) := by
      rw [hq1, hq2]
      exact ((List.sublist_cons_self p l2).append_left l1).map User.id
    have h2 : (q2.map User.id).Nodup := h1.sublist hsub
    by_cases hl : live p.id
    · rw [if_pos hl]
      exact h2
    · rw [if_neg hl]
      apply append_fresh_nodup h2
      intro e he
      have hemem : e ∈ removeUser q socketId := by
        rw [hq1]
        rcases List.mem_append.mp (hq2 ▸ he) with hin | hin
        · exact List.mem_append_left _ hin
        · exact List.mem_append_right _ (List.mem_cons_of_mem p hin)
      exact (mem_removeUser hemem).2

/-- Any single inbound event preserves distinctness of the queued ids. -/
theorem serverStep_ids_nodup (q : Queue) (e : SEvent)
    (h : (q.map User.id).Nodup) :
    ((serverStep q e).map User.id).Nodup := by
  cases e with
  | join live socketId username country =>
    exact startMatching_ids_nodup live q socketId username country h
  | hangup socketId partnerId => exact removeUser_ids_nodup h
  | disconnect socketId => exact removeUser_ids_nodup h

/-- Distinctness of the queued ids is preserved along any event run. -/
theorem serverRun_ids_nodup (evs : List SEvent) :
    ∀ q : Queue, (q.map User.id).Nodup →
      ((serverRun q evs).map User.id).Nodup := by
  induction evs with
  | nil =>
    intro q h
    simpa [serverRun] using h
  | cons e rest ih =>
    intro q h
    exact ih (serverStep q e) (serverStep_ids_nodup q e h)

/-! ## C8 — at most one queue entry per connection id -/

/-- C8.  Starting from the empty queue, after any sequence of join,
hangup and disconnect events the waiting queue holds at most one entry per
connection id: the listed ids are pairwise distinct, because a re-join
filters out any existing entry with the same id before appending. -/
theorem queueAtMostOnePerId (evs : List SEvent) :
    ((serverRun [] evs).map User.id).Nodup :=
  serverRun_ids_nodup evs [] (by simp)

/-! ## C9 — idempotence of removal, hangup and disconnect -/

/-- Filtering an id out twice equals filtering it out once. -/
theorem removeUser_idem (q : Queue) (socketId : String) :
    removeUser (removeUser q socketId) socketId = removeUser q socketId := by
  induction q with
  | nil => rfl
  | cons a rest ih =>
    by_cases h : a.id = socketId
    · simp only [removeUser, List.filter_cons] at ih ⊢
      simp [h, ih]
    · simp only [removeUser, List.filter_cons] at ih ⊢
      simp [h, ih]

/-- C9.  Queue removal, the user-hangup handler and the disconnect
handler are idempotent on the server state: running any of them twice for
the same connection id leaves the same queue as running it once. -/
theorem removalIdempotent (q : Queue) (socketId : String)
    (partnerId : Option String) :
    removeUser (removeUser q socketId) socketId = removeUser q socketId ∧
    (userHangup (userHangup q socketId partnerId).1 socketId partnerId).1 =
      (userHangup q socketId partnerId).1 ∧
    handleDisconnect (handleDisconnect q socketId) socketId =
      handleDisconnect q socketId := by
  refine ⟨removeUser_idem q socketId, ?_, ?_⟩ <;>
    simp [userHangup, handleDisconnect, removeUser_idem]

/-! ## C3 — a committed match empties both parties out of the queue and
establishes the mirrored session on both sides -/

/-- C3.  After a join that commits a match (both match-found emissions
delivered), neither matched connection id remains in the waiting queue,
and each side's session mirror references the other. -/
theorem matchedClearsQueueAndCreatesSession (live : String → Bool)
    (s : SystemState) (socketId username country : String) (p : User)
    (q' : Queue)
    (hnd : (s.queue.map User.id).Nodup)
    (h : startMatching live s.queue socketId username country = (.matched p, q')) :
    (∀ e ∈ (joinStep live s socketId username country).queue,
       e.id ≠ socketId ∧ e.id ≠ p.id) ∧
    (joinStep live s socketId username country).session socketId = some p.id ∧
    (joinStep live s socketId username country).session p.id = some socketId := by
  obtain ⟨hfp, hlive⟩ := startMatching_matched h
  obtain ⟨l1, l2, hq1, hq2⟩ := findAndRemovePartner_some hfp
  have hpmem : p ∈ removeUser s.queue socketId := by
    rw [hq1]
    exact List.mem_append_right l1 (List.mem_cons_self p l2)
  have hpid : p.id ≠ socketId := (mem_removeUser hpmem).2
  have hjq : (joinStep live s socketId username country).queue = q' := by
    simp only [joinStep]
    rw [h]
  have hjs : ∀ x, (joinStep live s socketId username country).session x =
      (if x = socketId then some p.id
       else if x = p.id then some socketId else s.session x) := by
    intro x
    simp only [joinStep]
    rw [h]
  have hnd1 : ((removeUser s.queue socketId).map User.id).Nodup :=
    removeUser_ids_nodup hnd
  have hnotin : p.id ∉ (l1 ++ l2).map User.id := by
    have hmid : ((l1 ++ p :: l2).map User.id).Nodup := hq1 ▸ hnd1
    rw [List.map_append, List.map_cons, List.nodup_middle, ← List.map_append]
      at hmid
    exact (List.nodup_cons.mp hmid).1
  refine ⟨?_, ?_, ?_⟩
  · intro e he
    rw [hjq, hq2] at he
    have hemem : e ∈ removeUser s.queue socketId := by
      rw [hq1]
      rcases List.mem_append.mp he with hin | hin
      · exact List.mem_append_left _ hin
      · exact List.mem_append_right _ (List.mem_cons_of_mem p hin)
    refine ⟨(mem_removeUser hemem).2, ?_⟩
    intro hee
    exact hnotin (hee ▸ List.mem_map_of_mem User.id he)
  · rw [hjs socketId]
    simp
  · rw [hjs p.id]
    simp [hpid]

/-- Concrete check of C3: after FR requester a matches waiting US user b,
the queue is empty and the two session mirrors reference each other. -/
theorem matchedClearsQueueAndCreatesSession_witness :
    (((SystemState.mk [User.mk "b" "bob" "US"] (fun _ => none)).queue.map
        User.id).Nodup) ∧
    ((∀ e ∈ (joinStep (fun _ => true)
          (SystemState.mk [User.mk "b" "bob" "US"] (fun _ => none))
          "a" "alice" "FR").queue,
        e.id ≠ "a" ∧ e.id ≠ (User.mk "b" "bob" "US").id) ∧
     (joinStep (fun _ => true)
        (SystemState.mk [User.mk "b" "bob" "US"] (fun _ => none))
        "a" "alice" "FR").session "a" = some (User.mk "b" "bob" "US").id ∧
     (joinStep (fun _ => true)
        (SystemState.mk [User.mk "b" "bob" "US"] (fun _ => none))
        "a" "alice" "FR").session (User.mk "b" "bob" "US").id = some "a") :=
  ⟨by decide,
    matchedClearsQueueAndCreatesSession (fun _ => true)
      (SystemState.mk [User.mk "b" "bob" "US"] (fun _ => none))
      "a" "alice" "FR" (User.mk "b" "bob" "US") [] (by decide) (by decide)⟩

end CutieChat
